import Mathlib

/-
  Verification development for the OctoPrint CLI config module
  (src/octoprint/cli/config.py).

  The module is a thin CLI layer over an external settings store.  We give a
  shallow embedding: Python strings become lists of characters, the settings
  store becomes an abstract lookup function, and each CLI command becomes a
  pure function returning its exit code together with the trace of store
  method invocations (get / set / setBoolean / setFloat / setInt / save) it
  performs, in order, plus the diagnostic messages it echoes.  The external
  json.loads is abstracted as a function returning Option Value.
-/

/-- Python strings, modelled as lists of characters so that all string
operations reduce by structural recursion. -/
abbrev PyStr := List Char

/-- The characters stripped by Python str.strip with no argument. -/
def isPySpace (c : Char) : Bool :=
  c = ' ' || c = '\t' || c = '\n' || c = '\r' || c = '\x0b' || c = '\x0c'

/-- Python str.strip: drop leading and trailing whitespace. -/
def pyStrip (s : PyStr) : PyStr :=
  ((s.dropWhile isPySpace).reverse.dropWhile isPySpace).reverse

/-- Python str.split with separator a single dot: splitting the empty string
yields one empty token, and consecutive dots yield empty tokens. -/
def pySplitDot : PyStr → List PyStr
  | [] => [[]]
  | c :: rest =>
    match pySplitDot rest with
    | [] => [[]]
    | t :: ts => if c = '.' then [] :: t :: ts else (c :: t) :: ts

/-- The argument of _to_settings_path: either a raw dot-string or an already
split sequence of segments (Python list or tuple). -/
inductive PathInput where
  | str (s : PyStr)
  | seq (l : List PyStr)

/-- Embeds _to_settings_path: a string is split on the dot, every token is
stripped, and falsy (empty) tokens are filtered out; a list or tuple is
returned unchanged. -/
def to_settings_path : PathInput → List PyStr
  | .str s => ((pySplitDot s).map pyStrip).filter (fun x => !x.isEmpty)
  | .seq l => l

/-- Stated from the specification text, for comparison with the source
definition: split on the dot, strip leading/trailing whitespace from each
token, discard tokens that become empty after stripping, preserve order. -/
def normalize_path_of_spec (s : PyStr) : List PyStr :=
  ((pySplitDot s).map pyStrip).filter (fun t => t ≠ [])

/-- Settings values: null, booleans, integers, strings and lists.  These are
the value shapes the config commands inspect; the only type test the module
performs is isinstance(current, list). -/
inductive Value where
  | vnull
  | vbool (b : Bool)
  | vint (n : Int)
  | vstr (s : PyStr)
  | vlist (l : List Value)

mutual

/-- Python equality on values.  Python bool is a subclass of int, so under
the operator == True equals 1 and False equals 0; the remaining shapes
compare structurally and values of different shapes are unequal. -/
def Value.beq : Value → Value → Bool
  | .vnull, .vnull => true
  | .vbool a, .vbool b => a = b
  | .vbool a, .vint n => (if a then (1 : Int) else 0) = n
  | .vint n, .vbool a => n = (if a then (1 : Int) else 0)
  | .vint a, .vint b => a = b
  | .vstr a, .vstr b => a = b
  | .vlist a, .vlist b => Value.beqList a b
  | _, _ => false

/-- Python equality on lists of values: elementwise ==. -/
def Value.beqList : List Value → List Value → Bool
  | [], [] => true
  | a :: as_, b :: bs => Value.beq a b && Value.beqList as_ bs
  | _, _ => false

end

/-- Whether a value is a Python list (the isinstance test of the module). -/
def Value.isList : Value → Bool
  | .vlist _ => true
  | _ => false

/-- The coercion kinds the set command can select (the data_type parameter of
_set_helper: the Python type objects bool, float, int). -/
inductive DataType where
  | dbool
  | dfloat
  | dint

/-- One invocation of a method of the external settings store, as recorded in
a command trace. -/
inductive StoreOp where
  | get (path : List PyStr) (merged : Bool)
  | set (path : List PyStr) (v : Value)
  | setBoolean (path : List PyStr) (v : Value)
  | setFloat (path : List PyStr) (v : Value)
  | setInt (path : List PyStr) (v : Value)
  | save

/-- Whether a store operation mutates the store (anything but a get). -/
def StoreOp.isMutation : StoreOp → Bool
  | .get _ _ => false
  | _ => true

/-- Whether a store operation is one of the typed setters. -/
def StoreOp.isTypedSetter : StoreOp → Bool
  | .setBoolean _ _ => true
  | .setFloat _ _ => true
  | .setInt _ _ => true
  | _ => false

/-- The diagnostic messages the commands echo.  Each constructor stands for
one click.echo call site in the source; parseError stands for echoing the
message of the exception raised by json.loads. -/
inductive Msg where
  | parseError
  | cannotAppend
  | cannotInsert
  | cannotRemoveFrom
  | valueNotContained

/-- The output formats of the get command. -/
inductive OutFormat where
  | json
  | yaml
  | raw
  | pretty

/-- The external settings store, abstracted to its read interface: get takes
the normalized path and the merged flag.  Mutations are only recorded in the
trace, since persistence is owned by the external component. -/
structure Settings where
  get : List PyStr → Bool → Value

/-- The observable outcome of one CLI command: its exit code (0 on success,
-1 for ctx.exit(-1)), the ordered trace of store method invocations, the
echoed diagnostics, and for the get command the chosen output format applied
to the retrieved value. -/
structure CmdResult where
  exit : Int
  ops : List StoreOp
  msgs : List Msg
  out : Option (OutFormat × Value)

/-- The value argument after optional JSON decoding: with the json flag the
raw text is passed to json.loads (abstracted as parse), otherwise it stays
the raw string. -/
def parseArg (parse : PyStr → Option Value) (value : PyStr) (as_json : Bool) :
    Option Value :=
  if as_json then parse value else some (.vstr value)

/-- Embeds _set_helper: normalize the path, pick the store method from the
data type (setBoolean / setFloat / setInt for bool / float / int, the generic
set otherwise), invoke it with (path, value), then save.  Returns the trace
of the two store invocations. -/
def set_helper (path : PathInput) (value : Value) (data_type : Option DataType) :
    List StoreOp :=
  let p := to_settings_path path
  let op :=
    match data_type with
    | some .dbool => StoreOp.setBoolean p value
    | some .dfloat => StoreOp.setFloat p value
    | some .dint => StoreOp.setInt p value
    | none => StoreOp.set p value
  [op, StoreOp.save]

/-- Embeds set_command: optionally JSON-decode the value (exiting -1 on a
decode failure before touching the store), select the data type with bool
taking precedence over float over int, and delegate to _set_helper. -/
def set_command (_settings : Settings) (parse : PyStr → Option Value)
    (path value : PyStr) (as_bool as_float as_int as_json : Bool) : CmdResult :=
  match parseArg parse value as_json with
  | none => { exit := -1, ops := [], msgs := [.parseError], out := none }
  | some v =>
    let data_type : Option DataType :=
      if as_bool then some .dbool
      else if as_float then some .dfloat
      else if as_int then some .dint
      else none
    { exit := 0, ops := set_helper (.str path) v data_type, msgs := [], out := none }

/-- Embeds remove_command: _set_helper with value None and no data type. -/
def remove_command (_settings : Settings) (path : PyStr) : CmdResult :=
  { exit := 0, ops := set_helper (.str path) .vnull none, msgs := [], out := none }

/-- Python list membership for the value-in-current test, by value equality. -/
def pyContains (l : List Value) (v : Value) : Bool :=
  match l with
  | [] => false
  | x :: xs => Value.beq v x || pyContains xs v

/-- Python list.remove: drop the first element equal to v. -/
def pyRemoveFirst (l : List Value) (v : Value) : List Value :=
  match l with
  | [] => []
  | x :: xs => if Value.beq v x then xs else x :: pyRemoveFirst xs v

/-- Python list.insert: a negative index counts from the end, and the
effective index is clamped to the interval from 0 to the length. -/
def pyInsert (l : List Value) (i : Int) (v : Value) : List Value :=
  let j : Int := if i < 0 then i + l.length else i
  let k : Nat := if j < 0 then 0 else min j.toNat l.length
  l.take k ++ v :: l.drop k

/-- Embeds append_value_command: normalize the path, optionally JSON-decode
the value (exit -1 on failure before any store access), read the current
value (None becomes the empty list), fail with the cannot-append message and
exit -1 if it is not a list, otherwise append and persist via _set_helper. -/
def append_value_command (settings : Settings) (parse : PyStr → Option Value)
    (path value : PyStr) (as_json : Bool) : CmdResult :=
  let p := to_settings_path (.str path)
  match parseArg parse value as_json with
  | none => { exit := -1, ops := [], msgs := [.parseError], out := none }
  | some v =>
    let current0 := settings.get p false
    let current := match current0 with | .vnull => Value.vlist [] | c => c
    match current with
    | .vlist l =>
      { exit := 0
        ops := .get p false :: set_helper (.seq p) (.vlist (l ++ [v])) none
        msgs := []
        out := none }
    | _ => { exit := -1, ops := [.get p false], msgs := [.cannotAppend], out := none }

/-- Embeds insert_value_command: like append, but inserts at the given index
with Python list.insert semantics before persisting. -/
def insert_value_command (settings : Settings) (parse : PyStr → Option Value)
    (path : PyStr) (index : Int) (value : PyStr) (as_json : Bool) : CmdResult :=
  let p := to_settings_path (.str path)
  match parseArg parse value as_json with
  | none => { exit := -1, ops := [], msgs := [.parseError], out := none }
  | some v =>
    let current0 := settings.get p false
    let current := match current0 with | .vnull => Value.vlist [] | c => c
    match current with
    | .vlist l =>
      { exit := 0
        ops := .get p false :: set_helper (.seq p) (.vlist (pyInsert l index v)) none
        msgs := []
        out := none }
    | _ => { exit := -1, ops := [.get p false], msgs := [.cannotInsert], out := none }

/-- Embeds remove_value_command: like append, but when the value is not in
the current list it echoes the informational message and exits 0 without
mutating, and otherwise removes the first occurrence and persists. -/
def remove_value_command (settings : Settings) (parse : PyStr → Option Value)
    (path value : PyStr) (as_json : Bool) : CmdResult :=
  let p := to_settings_path (.str path)
  match parseArg parse value as_json with
  | none => { exit := -1, ops := [], msgs := [.parseError], out := none }
  | some v =>
    let current0 := settings.get p false
    let current := match current0 with | .vnull => Value.vlist [] | c => c
    match current with
    | .vlist l =>
      if pyContains l v = false then
        { exit := 0, ops := [.get p false], msgs := [.valueNotContained], out := none }
      else
        { exit := 0
          ops := .get p false :: set_helper (.seq p) (.vlist (pyRemoveFirst l v)) none
          msgs := []
          out := none }
    | _ => { exit := -1, ops := [.get p false], msgs := [.cannotRemoveFrom], out := none }

/-- The output format chosen by get_command: json beats yaml beats raw beats
the pretty-printed default. -/
def chooseFormat (as_json as_yaml as_raw : Bool) : OutFormat :=
  if as_json then .json else if as_yaml then .yaml else if as_raw then .raw else .pretty

/-- Embeds get_command: normalize the path, read with merged true, and echo
the value rendered in the chosen format.  The external renderers (json.dumps,
yaml.safe_dump, pprint.pformat) are abstracted: the result records which
format was applied to which value. -/
def get_command (settings : Settings) (path : PyStr)
    (as_json as_yaml as_raw : Bool) : CmdResult :=
  let p := to_settings_path (.str path)
  let value := settings.get p true
  { exit := 0
    ops := [.get p true]
    msgs := []
    out := some (chooseFormat as_json as_yaml as_raw, value) }

/-- A constant store whose get always returns the same value. -/
def storeOf (v : Value) : Settings := ⟨fun _ _ => v⟩

/-- A JSON decoder that rejects every input, standing for json.loads on
malformed text. -/
def parseNoneFn : PyStr → Option Value := fun _ => none

mutual

/-- Python equality on values is reflexive. -/
theorem Value.beq_refl : ∀ v : Value, Value.beq v v = true
  | .vnull => rfl
  | .vbool b => by simp [Value.beq]
  | .vint n => by simp [Value.beq]
  | .vstr s => by simp [Value.beq]
  | .vlist l => by simp only [Value.beq]; exact Value.beqList_refl l

/-- Python equality on lists of values is reflexive. -/
theorem Value.beqList_refl : ∀ l : List Value, Value.beqList l l = true
  | [] => rfl
  | x :: xs => by
      simp only [Value.beqList, Bool.and_eq_true]
      exact ⟨Value.beq_refl x, Value.beqList_refl xs⟩

end

/-- C1: _to_settings_path on a string splits on the dot, strips each token,
drops tokens that become empty, and preserves the order of the rest — the
normalization the spec describes — and on a list or tuple of segments it
returns the input verbatim; on " a . b..c " it yields ["a", "b", "c"]. -/
theorem C1_to_settings_path_normalizes :
    (∀ s : PyStr, to_settings_path (.str s) = normalize_path_of_spec s)
    ∧ (∀ l : List PyStr, to_settings_path (.seq l) = l)
    ∧ to_settings_path (.str (String.toList " a . b..c ")) =
        [String.toList "a", String.toList "b", String.toList "c"] := by
  refine ⟨fun s => ?_, fun l => rfl, by decide⟩
  simp only [to_settings_path, normalize_path_of_spec]
  congr 1
  funext x
  cases x <;> simp [List.isEmpty]

/-- C6: _set_helper dispatches on the coercion kind — setBoolean for bool,
setFloat for float, setInt for int, the generic set for none — invoking the
chosen setter with the normalized path and the value, and in every case the
setter invocation is immediately followed by save, so every completed
mutation is persisted. -/
theorem C6_set_helper_dispatch_and_save (path : PathInput) (v : Value) :
    set_helper path v (some .dbool) = [.setBoolean (to_settings_path path) v, .save]
    ∧ set_helper path v (some .dfloat) = [.setFloat (to_settings_path path) v, .save]
    ∧ set_helper path v (some .dint) = [.setInt (to_settings_path path) v, .save]
    ∧ set_helper path v none = [.set (to_settings_path path) v, .save]
    ∧ ∀ dt : Option DataType, (set_helper path v dt).getLast? = some .save := by
  refine ⟨rfl, rfl, rfl, rfl, fun dt => ?_⟩
  match dt with
  | none => rfl
  | some .dbool => rfl
  | some .dfloat => rfl
  | some .dint => rfl

/-- C8: remove_command is behaviorally the same as _set_helper with value
None and no coercion: it normalizes the path, invokes the generic set with
the null value, then saves, and exits 0. -/
theorem C8_remove_equiv_set_null (settings : Settings) (path : PyStr) :
    (remove_command settings path).ops = set_helper (.str path) .vnull none
    ∧ (remove_command settings path).ops =
        [.set (to_settings_path (.str path)) .vnull, .save]
    ∧ (remove_command settings path).exit = 0
    ∧ (remove_command settings path).msgs = [] :=
  ⟨rfl, rfl, rfl, rfl⟩

/-- C9: get_command only reads: for every store, path and output format its
store trace is exactly one get with merged true on the normalized path — no
set, no typed setter, no save — and its output is the retrieved value in the
chosen format. -/
theorem C9_get_no_mutation (settings : Settings) (path : PyStr)
    (as_json as_yaml as_raw : Bool) :
    (get_command settings path as_json as_yaml as_raw).ops =
        [.get (to_settings_path (.str path)) true]
    ∧ ((get_command settings path as_json as_yaml as_raw).ops.all
        fun op => !op.isMutation) = true
    ∧ (get_command settings path as_json as_yaml as_raw).out =
        some (chooseFormat as_json as_yaml as_raw,
          settings.get (to_settings_path (.str path)) true) :=
  ⟨rfl, rfl, rfl⟩

/-- C10: when several coercion flags of the set command are given at once,
bool takes precedence over float over int: with the bool flag the trace is
setBoolean then save regardless of the other flags, with float set and bool
unset it is setFloat then save, with only int it is setInt then save; the
trace always holds at most one typed setter, and exactly one when all three
flags are given, so the combination is deterministic rather than an error. -/
theorem C10_coercion_flag_precedence (settings : Settings)
    (parse : PyStr → Option Value) (path value : PyStr) :
    (∀ f i : Bool, (set_command settings parse path value true f i false).ops =
        [.setBoolean (to_settings_path (.str path)) (.vstr value), .save])
    ∧ (∀ i : Bool, (set_command settings parse path value false true i false).ops =
        [.setFloat (to_settings_path (.str path)) (.vstr value), .save])
    ∧ (set_command settings parse path value false false true false).ops =
        [.setInt (to_settings_path (.str path)) (.vstr value), .save]
    ∧ (∀ b f i : Bool,
        ((set_command settings parse path value b f i false).ops.filter
          StoreOp.isTypedSetter).length ≤ 1)
    ∧ ((set_command settings parse path value true true true false).ops.filter
          StoreOp.isTypedSetter).length = 1 := by
  refine ⟨fun f i => rfl, fun i => rfl, rfl, fun b f i => ?_, rfl⟩
  cases b <;> cases f <;> cases i <;>
    simp [set_command, parseArg, set_helper, StoreOp.isTypedSetter, List.filter]

/-- C2: when the current value at the path exists (is not null) and is not a
list, each of append_value, insert_value and remove_value echoes its
type-mismatch message and exits nonzero, and its store trace is the single
read — no setter and no save, so the store is left unmodified. -/
theorem C2_list_ops_type_mismatch (settings : Settings)
    (parse : PyStr → Option Value) (path value : PyStr) (index : Int)
    (as_json : Bool) (v cur : Value)
    (hp : parseArg parse value as_json = some v)
    (hget : settings.get (to_settings_path (.str path)) false = cur)
    (hnull : cur ≠ .vnull) (hlist : cur.isList = false) :
    ((append_value_command settings parse path value as_json).exit ≠ 0
      ∧ (append_value_command settings parse path value as_json).msgs = [.cannotAppend]
      ∧ (append_value_command settings parse path value as_json).ops =
          [.get (to_settings_path (.str path)) false]
      ∧ ((append_value_command settings parse path value as_json).ops.all
          fun op => !op.isMutation) = true)
    ∧ ((insert_value_command settings parse path index value as_json).exit ≠ 0
      ∧ (insert_value_command settings parse path index value as_json).msgs =
          [.cannotInsert]
      ∧ (insert_value_command settings parse path index value as_json).ops =
          [.get (to_settings_path (.str path)) false]
      ∧ ((insert_value_command settings parse path index value as_json).ops.all
          fun op => !op.isMutation) = true)
    ∧ ((remove_value_command settings parse path value as_json).exit ≠ 0
      ∧ (remove_value_command settings parse path value as_json).msgs =
          [.cannotRemoveFrom]
      ∧ (remove_value_command settings parse path value as_json).ops =
          [.get (to_settings_path (.str path)) false]
      ∧ ((remove_value_command settings parse path value as_json).ops.all
          fun op => !op.isMutation) = true) := by
  cases cur with
  | vnull => exact absurd rfl hnull
  | vlist l => simp [Value.isList] at hlist
  | vbool b =>
    simp [append_value_command, insert_value_command, remove_value_command,
      hp, hget, StoreOp.isMutation]
  | vint n =>
    simp [append_value_command, insert_value_command, remove_value_command,
      hp, hget, StoreOp.isMutation]
  | vstr s =>
    simp [append_value_command, insert_value_command, remove_value_command,
      hp, hget, StoreOp.isMutation]

/-- C7: when a command is run with the json flag and the value is not valid
JSON, the parse fails before any store access: set, append_value,
insert_value and remove_value all echo the parse error, exit nonzero, and
their store traces are empty — not even a get happens. -/
theorem C7_json_parse_failure_no_mutation (settings : Settings)
    (parse : PyStr → Option Value) (path value : PyStr) (index : Int)
    (as_bool as_float as_int : Bool)
    (hp : parse value = none) :
    ((set_command settings parse path value as_bool as_float as_int true).exit ≠ 0
      ∧ (set_command settings parse path value as_bool as_float as_int true).ops = []
      ∧ (set_command settings parse path value as_bool as_float as_int true).msgs =
          [.parseError])
    ∧ ((append_value_command settings parse path value true).exit ≠ 0
      ∧ (append_value_command settings parse path value true).ops = []
      ∧ (append_value_command settings parse path value true).msgs = [.parseError])
    ∧ ((insert_value_command settings parse path index value true).exit ≠ 0
      ∧ (insert_value_command settings parse path index value true).ops = []
      ∧ (insert_value_command settings parse path index value true).msgs =
          [.parseError])
    ∧ ((remove_value_command settings parse path value true).exit ≠ 0
      ∧ (remove_value_command settings parse path value true).ops = []
      ∧ (remove_value_command settings parse path value true).msgs = [.parseError]) := by
  simp [set_command, append_value_command, insert_value_command,
    remove_value_command, parseArg, hp]

/-- _to_settings_path leaves an already split sequence unchanged. -/
theorem to_settings_path_seq (l : List PyStr) : to_settings_path (.seq l) = l := rfl

/-- Python list.remove drops exactly the first occurrence: with no match in
the prefix, removing a from pre ++ a :: post yields pre ++ post. -/
theorem pyRemoveFirst_first_occurrence (pre post : List Value) (a : Value)
    (hpre : pyContains pre a = false) :
    pyRemoveFirst (pre ++ a :: post) a = pre ++ post := by
  induction pre with
  | nil => simp [pyRemoveFirst, Value.beq_refl]
  | cons x xs ih =>
    simp only [pyContains, Bool.or_eq_false_iff] at hpre
    simp [pyRemoveFirst, hpre.1, ih hpre.2]

/-- C3: remove_value on a list: when the value is not in the list (by Python
value equality ==, under which True equals 1) the command echoes the
informational message, exits 0 and performs no mutation; when it is, the
trace persists the list with exactly the first matching occurrence removed,
remaining order preserved, followed by save; removing a from [a, b, a]
yields [b, a], True is contained in [1], and removing 1 from [True, 1]
removes the True first. -/
theorem C3_remove_value_first_match (settings : Settings)
    (parse : PyStr → Option Value) (path value : PyStr) (as_json : Bool)
    (v : Value) (l : List Value)
    (hp : parseArg parse value as_json = some v)
    (hget : settings.get (to_settings_path (.str path)) false = .vlist l) :
    (pyContains l v = false →
      (remove_value_command settings parse path value as_json).exit = 0
      ∧ (remove_value_command settings parse path value as_json).msgs =
          [.valueNotContained]
      ∧ (remove_value_command settings parse path value as_json).ops =
          [.get (to_settings_path (.str path)) false]
      ∧ ((remove_value_command settings parse path value as_json).ops.all
          fun op => !op.isMutation) = true)
    ∧ (pyContains l v = true →
      (remove_value_command settings parse path value as_json).exit = 0
      ∧ (remove_value_command settings parse path value as_json).ops =
          [.get (to_settings_path (.str path)) false,
           .set (to_settings_path (.str path)) (.vlist (pyRemoveFirst l v)),
           .save])
    ∧ (∀ (pre post : List Value) (a : Value), pyContains pre a = false →
        pyRemoveFirst (pre ++ a :: post) a = pre ++ post)
    ∧ pyRemoveFirst [.vint 0, .vint 1, .vint 0] (.vint 0) = [.vint 1, .vint 0]
    ∧ pyContains [.vint 1] (.vbool true) = true
    ∧ pyRemoveFirst [.vbool true, .vint 1] (.vint 1) = [.vint 1] := by
  refine ⟨fun hno => ?_, fun hyes => ?_, pyRemoveFirst_first_occurrence,
    by rfl, by rfl, by rfl⟩
  · simp [remove_value_command, hp, hget, hno, StoreOp.isMutation]
  · simp [remove_value_command, set_helper, to_settings_path_seq, hp, hget, hyes]

/-- Python list.insert clamps: inserting at an index at or beyond the length
appends at the end. -/
theorem pyInsert_ge_length (m : List Value) (i : Int) (w : Value)
    (h : (m.length : Int) ≤ i) :
    pyInsert m i w = m ++ [w] := by
  have h0 : ¬ i < 0 := by omega
  have h2 : m.length ≤ i.toNat := by omega
  simp only [pyInsert, if_neg h0]
  rw [min_eq_right h2, List.take_length, List.drop_length]

/-- Python list.insert counts a negative index from the end: index -1 inserts
right before the last element. -/
theorem pyInsert_neg_one (m : List Value) (w x : Value) :
    pyInsert (m ++ [x]) (-1) w = m ++ [w, x] := by
  have hlen : (m ++ [x]).length = m.length + 1 := by simp
  simp only [pyInsert, hlen]
  rw [if_pos (by norm_num : (-1 : Int) < 0)]
  have h2 : ¬ ((-1 : Int) + (↑(m.length + 1)) < 0) := by push_cast; omega
  rw [if_neg h2]
  have h3 : ((-1 : Int) + (↑(m.length + 1))).toNat = m.length := by push_cast; omega
  have h4 : min m.length (m.length + 1) = m.length := by omega
  rw [h3, h4]
  have h5 : (m ++ [x]).take m.length = m := List.take_left m [x]
  have h6 : (m ++ [x]).drop m.length = [x] := List.drop_left m [x]
  rw [h5, h6]

/-- C4: insert_value on a list (an absent value counting as the empty list)
persists the list with the value inserted under Python clamped insertion:
an index at or beyond the length appends at the end (index 100 into a
3-element list lands at position 3), index -1 inserts before the last
element, and the following elements shift; the trace ends with save. -/
theorem C4_insert_clamped (settings : Settings) (parse : PyStr → Option Value)
    (path value : PyStr) (index : Int) (as_json : Bool) (v : Value)
    (l : List Value)
    (hp : parseArg parse value as_json = some v)
    (hget : settings.get (to_settings_path (.str path)) false = .vlist l
      ∨ (settings.get (to_settings_path (.str path)) false = .vnull ∧ l = [])) :
    (insert_value_command settings parse path index value as_json).exit = 0
    ∧ (insert_value_command settings parse path index value as_json).ops =
        [.get (to_settings_path (.str path)) false,
         .set (to_settings_path (.str path)) (.vlist (pyInsert l index v)),
         .save]
    ∧ (∀ (m : List Value) (i : Int) (w : Value),
        (m.length : Int) ≤ i → pyInsert m i w = m ++ [w])
    ∧ (∀ (m : List Value) (w x : Value), pyInsert (m ++ [x]) (-1) w = m ++ [w, x])
    ∧ pyInsert [.vint 0, .vint 1, .vint 2] 100 (.vint 9) =
        [.vint 0, .vint 1, .vint 2, .vint 9] := by
  have hmain : insert_value_command settings parse path index value as_json =
      { exit := 0
        ops := [.get (to_settings_path (.str path)) false,
                .set (to_settings_path (.str path)) (.vlist (pyInsert l index v)),
                .save]
        msgs := []
        out := none } := by
    obtain hget | ⟨hget, rfl⟩ := hget <;>
      simp [insert_value_command, set_helper, to_settings_path_seq, hp, hget]
  exact ⟨by rw [hmain], by rw [hmain], pyInsert_ge_length, pyInsert_neg_one, by rfl⟩

/-- C5: append_value treats an absent value as the empty list, appends the
value at the end preserving the existing order, and persists with the
generic setter followed by save; in particular appending v1 and then, once
the store holds [v1], appending v2 persists [v1, v2]. -/
theorem C5_append_order (settings : Settings) (parse : PyStr → Option Value)
    (path value : PyStr) (as_json : Bool) (v : Value) (l : List Value)
    (hp : parseArg parse value as_json = some v)
    (hget : settings.get (to_settings_path (.str path)) false = .vlist l
      ∨ (settings.get (to_settings_path (.str path)) false = .vnull ∧ l = [])) :
    (append_value_command settings parse path value as_json).exit = 0
    ∧ (append_value_command settings parse path value as_json).ops =
        [.get (to_settings_path (.str path)) false,
         .set (to_settings_path (.str path)) (.vlist (l ++ [v])),
         .save]
    ∧ (∀ (s1 s2 : Settings) (v1 v2 : PyStr),
        s1.get (to_settings_path (.str path)) false = .vnull →
        s2.get (to_settings_path (.str path)) false = .vlist [.vstr v1] →
        (append_value_command s1 parse path v1 false).ops =
          [.get (to_settings_path (.str path)) false,
           .set (to_settings_path (.str path)) (.vlist [.vstr v1]),
           .save]
        ∧ (append_value_command s2 parse path v2 false).ops =
          [.get (to_settings_path (.str path)) false,
           .set (to_settings_path (.str path)) (.vlist [.vstr v1, .vstr v2]),
           .save]) := by
  have hmain : append_value_command settings parse path value as_json =
      { exit := 0
        ops := [.get (to_settings_path (.str path)) false,
                .set (to_settings_path (.str path)) (.vlist (l ++ [v])),
                .save]
        msgs := []
        out := none } := by
    obtain hget | ⟨hget, rfl⟩ := hget <;>
      simp [append_value_command, set_helper, to_settings_path_seq, hp, hget]
  refine ⟨by rw [hmain], by rw [hmain], fun s1 s2 v1 v2 h1 h2 => ⟨?_, ?_⟩⟩
  · simp [append_value_command, set_helper, to_settings_path_seq, parseArg, h1]
  · simp [append_value_command, set_helper, to_settings_path_seq, parseArg, h2]

/-- Concrete witness for C2: a store whose current value is the integer 5. -/
theorem C2_list_ops_type_mismatch_witness :
    parseArg parseNoneFn ['v'] false = some (.vstr ['v'])
    ∧ (storeOf (.vint 5)).get (to_settings_path (.str ['a'])) false = .vint 5
    ∧ Value.vint 5 ≠ .vnull
    ∧ (Value.vint 5).isList = false
    ∧ (append_value_command (storeOf (.vint 5)) parseNoneFn ['a'] ['v'] false).exit ≠ 0
    ∧ (insert_value_command (storeOf (.vint 5)) parseNoneFn ['a'] 0 ['v'] false).exit ≠ 0
    ∧ (remove_value_command (storeOf (.vint 5)) parseNoneFn ['a'] ['v'] false).exit ≠ 0 := by
  have t := C2_list_ops_type_mismatch (storeOf (.vint 5)) parseNoneFn ['a'] ['v']
    0 false (.vstr ['v']) (.vint 5) rfl rfl (by simp) rfl
  exact ⟨rfl, rfl, by simp, rfl, t.1.1, t.2.1.1, t.2.2.1⟩

/-- Concrete witness for C3: removing "x" from the list ["x", "y", "x"]
persists ["y", "x"]. -/
theorem C3_remove_value_first_match_witness :
    parseArg parseNoneFn ['x'] false = some (.vstr ['x'])
    ∧ (storeOf (.vlist [.vstr ['x'], .vstr ['y'], .vstr ['x']])).get
        (to_settings_path (.str ['a'])) false =
        .vlist [.vstr ['x'], .vstr ['y'], .vstr ['x']]
    ∧ pyContains [.vstr ['x'], .vstr ['y'], .vstr ['x']] (.vstr ['x']) = true
    ∧ (remove_value_command (storeOf (.vlist [.vstr ['x'], .vstr ['y'], .vstr ['x']]))
        parseNoneFn ['a'] ['x'] false).ops =
        [.get (to_settings_path (.str ['a'])) false,
         .set (to_settings_path (.str ['a']))
           (.vlist (pyRemoveFirst [.vstr ['x'], .vstr ['y'], .vstr ['x']] (.vstr ['x']))),
         .save]
    ∧ pyRemoveFirst [.vint 0, .vint 1, .vint 0] (.vint 0) = [.vint 1, .vint 0] := by
  have t := C3_remove_value_first_match
    (storeOf (.vlist [.vstr ['x'], .vstr ['y'], .vstr ['x']])) parseNoneFn
    ['a'] ['x'] false (.vstr ['x']) [.vstr ['x'], .vstr ['y'], .vstr ['x']] rfl rfl
  exact ⟨rfl, rfl, rfl, (t.2.1 rfl).2, t.2.2.2.1⟩

/-- Concrete witness for C4: inserting at index 100 into the 3-element list
[0, 1, 2] persists [0, 1, 2, 9]. -/
theorem C4_insert_clamped_witness :
    parseArg parseNoneFn ['v'] false = some (.vstr ['v'])
    ∧ (storeOf (.vlist [.vint 0, .vint 1, .vint 2])).get
        (to_settings_path (.str ['a'])) false = .vlist [.vint 0, .vint 1, .vint 2]
    ∧ (insert_value_command (storeOf (.vlist [.vint 0, .vint 1, .vint 2]))
        parseNoneFn ['a'] 100 ['v'] false).exit = 0
    ∧ (insert_value_command (storeOf (.vlist [.vint 0, .vint 1, .vint 2]))
        parseNoneFn ['a'] 100 ['v'] false).ops =
        [.get (to_settings_path (.str ['a'])) false,
         .set (to_settings_path (.str ['a']))
           (.vlist (pyInsert [.vint 0, .vint 1, .vint 2] 100 (.vstr ['v']))),
         .save]
    ∧ pyInsert [.vint 0, .vint 1, .vint 2] 100 (.vint 9) =
        [.vint 0, .vint 1, .vint 2, .vint 9] := by
  have t := C4_insert_clamped (storeOf (.vlist [.vint 0, .vint 1, .vint 2]))
    parseNoneFn ['a'] ['v'] 100 false (.vstr ['v']) [.vint 0, .vint 1, .vint 2]
    rfl (Or.inl rfl)
  exact ⟨rfl, rfl, t.1, t.2.1, t.2.2.2.2⟩

/-- Concrete witness for C5: appending "h" to an unset path persists ["h"],
and appending "i" once the store holds ["h"] persists ["h", "i"]. -/
theorem C5_append_order_witness :
    parseArg parseNoneFn ['h'] false = some (.vstr ['h'])
    ∧ (storeOf .vnull).get (to_settings_path (.str ['a'])) false = .vnull
    ∧ (append_value_command (storeOf .vnull) parseNoneFn ['a'] ['h'] false).ops =
        [.get (to_settings_path (.str ['a'])) false,
         .set (to_settings_path (.str ['a'])) (.vlist [.vstr ['h']]),
         .save]
    ∧ (append_value_command (storeOf (.vlist [.vstr ['h']])) parseNoneFn
        ['a'] ['i'] false).ops =
        [.get (to_settings_path (.str ['a'])) false,
         .set (to_settings_path (.str ['a'])) (.vlist [.vstr ['h'], .vstr ['i']]),
         .save] := by
  have t := C5_append_order (storeOf .vnull) parseNoneFn ['a'] ['h'] false
    (.vstr ['h']) [] rfl (Or.inr ⟨rfl, rfl⟩)
  have pair := t.2.2 (storeOf .vnull) (storeOf (.vlist [.vstr ['h']])) ['h'] ['i'] rfl rfl
  exact ⟨rfl, rfl, pair.1, pair.2⟩

/-- Concrete witness for C7: with the json flag and a decoder that rejects
the input, every command exits nonzero with an empty store trace. -/
theorem C7_json_parse_failure_witness :
    parseNoneFn ['v'] = none
    ∧ (set_command (storeOf .vnull) parseNoneFn ['a'] ['v'] false false false true).exit ≠ 0
    ∧ (set_command (storeOf .vnull) parseNoneFn ['a'] ['v'] false false false true).ops = []
    ∧ (append_value_command (storeOf .vnull) parseNoneFn ['a'] ['v'] true).ops = []
    ∧ (insert_value_command (storeOf .vnull) parseNoneFn ['a'] 0 ['v'] true).ops = []
    ∧ (remove_value_command (storeOf .vnull) parseNoneFn ['a'] ['v'] true).ops = [] := by
  have t := C7_json_parse_failure_no_mutation (storeOf .vnull) parseNoneFn
    ['a'] ['v'] 0 false false false rfl
  exact ⟨rfl, t.1.1, t.1.2.1, t.2.1.2.1, t.2.2.1.2.1, t.2.2.2.2.1⟩
